import Mathlib

set_option maxHeartbeats 4000000
set_option maxRecDepth 10000

namespace AzCli

/-! Shallow embedding of the Azure CLI website chat assistant
(`src/Azure_CLI_MCP/website_app.py` and `src/Azure_CLI_MCP/main.py`).

The data model follows the Anthropic message shapes the code manipulates:
model responses are ordered lists of content blocks (text or tool-use),
the conversation history is a list of role-tagged messages whose content is
either a plain string (user text), a list of content blocks (assistant), or
a list of tool-result records (the bundled tool results sent back as a
user message). -/

/-- A JSON-like value appearing in a tool-use block's input mapping.
Only strings and integers are needed by the code paths modelled here. -/
inductive JsonVal where
  | str : String → JsonVal
  | num : Int → JsonVal
deriving DecidableEq, Repr

/-- The structured input of a tool-use block: a mapping from string keys to
values, kept as an ordered association list (Python dict preserves insertion
order). -/
abbrev ToolInput := List (String × JsonVal)

/-- One tool-use content block: `{id, name, input}`. -/
structure ToolUseData where
  id : String
  name : String
  input : ToolInput
deriving DecidableEq, Repr

/-- One content block of a model response: `content.type` is either
`text` or `tool_use` in the source's duck-typed checks. -/
inductive ContentBlock where
  | text : String → ContentBlock
  | tool_use : ToolUseData → ContentBlock
deriving DecidableEq, Repr

/-- One tool-result record, as built by the loop:
`{"type": "tool_result", "tool_use_id": ..., "content": ...}`. -/
structure ToolResult where
  tool_use_id : String
  content : String
deriving DecidableEq, Repr

/-- The content of one conversation-history entry. -/
inductive MsgContent where
  | text : String → MsgContent
  | blocks : List ContentBlock → MsgContent
  | results : List ToolResult → MsgContent
deriving DecidableEq, Repr

/-- One conversation-history entry: `{"role": ..., "content": ...}`. -/
structure Message where
  role : String
  content : MsgContent
deriving DecidableEq, Repr

/-- A user text message, `{"role": "user", "content": query}`. -/
def userMsg (q : String) : Message := ⟨"user", MsgContent.text q⟩

/-- An assistant message carrying the model response's content blocks. -/
def assistantMsg (bs : List ContentBlock) : Message := ⟨"assistant", MsgContent.blocks bs⟩

/-- The single user message bundling all tool results of one iteration. -/
def toolResultsMsg (rs : List ToolResult) : Message := ⟨"user", MsgContent.results rs⟩

/-- Project a content block to its text, when it is a text block. -/
def ContentBlock.textOf? : ContentBlock → Option String
  | .text s => some s
  | .tool_use _ => none

/-- Project a content block to its tool-use data, when it is one. -/
def ContentBlock.toolUseOf? : ContentBlock → Option ToolUseData
  | .text _ => none
  | .tool_use t => some t

/-- The texts of the text blocks of a response, in original order
(`[content for content in response.content if content.type == 'text']`). -/
def textBlocks (bs : List ContentBlock) : List String := bs.filterMap ContentBlock.textOf?

/-- The tool-use blocks of a response, in original order
(`[content for content in response.content if content.type == 'tool_use']`). -/
def toolUses (bs : List ContentBlock) : List ToolUseData := bs.filterMap ContentBlock.toolUseOf?

/-- Serialization of a single JSON value, as `json.dumps` renders it. -/
def JsonVal.dump : JsonVal → String
  | .str s => "\x22" ++ s ++ "\x22"
  | .num n => toString n

/-- Insert one key-value pair into a key-sorted association list. -/
def insertByKey (p : String × JsonVal) : List (String × JsonVal) → List (String × JsonVal)
  | [] => [p]
  | q :: rest => if p.1 < q.1 then p :: q :: rest else q :: insertByKey p rest

/-- Sort an association list by key (the effect of `sort_keys=True`). -/
def sortByKey : List (String × JsonVal) → List (String × JsonVal)
  | [] => []
  | p :: rest => insertByKey p (sortByKey rest)

/-- `json.dumps(input, sort_keys=True)` on a flat string-keyed object. -/
def dumpsSortKeys (input : ToolInput) : String :=
  "\x7b" ++
    String.intercalate ", "
      ((sortByKey input).map (fun p => "\x22" ++ p.1 ++ "\x22: " ++ p.2.dump)) ++
  "\x7d"

/-- The canonical signature of one tool call, as recorded for loop
detection: `f"{tool_use.name}({json.dumps(tool_use.input, sort_keys=True)})"`. -/
def toolSignature (t : ToolUseData) : String := t.name ++ "(" ++ dumpsSortKeys t.input ++ ")"

/-- The emergency-stop diagnostic appended when the safety limit is hit. -/
def emergencyMsg (safety_limit : Nat) : String :=
  "\n\n[Emergency Stop: Reached safety limit of " ++ toString safety_limit ++ " iterations]"

/-- The diagnostic appended when a model-gateway call fails in an iteration. -/
def apiErrorMsg (iteration : Nat) (e : String) : String :=
  "\n\n[Error: Claude API call failed in iteration " ++ toString iteration ++ ": " ++ e ++ "]"

/-- The stall diagnostic appended when the same tool pattern repeats. -/
def loopWarningMsg : String :=
  "\n\n[Warning: Detected potential infinite loop - stopping to prevent endless execution]"

/-- Stall check: the history has at least three entries and the three most
recent signature lists are pairwise identical
(`recent_patterns[0] == recent_patterns[1] == recent_patterns[2]`). -/
def stallDetected (th : List (List String)) : Bool :=
  match th.reverse with
  | a :: b :: c :: _ => a == b && b == c
  | _ => false

/-- The model gateway: one call to the LLM backend given the accumulated
conversation; failure carries the exception's message. -/
abbrev Gateway := List Message → Except String (List ContentBlock)

/-- The tool invoker: `session.call_tool(name, input)` followed by the
textual content extraction; failure carries the exception's message. -/
abbrev ToolExec := String → ToolInput → Except String String

/-- One tool invocation as performed inside the loop's per-tool try/except:
on success the extracted text is the result content, on failure the content
is the string `"Error executing tool: {e}"`; either way the result is
correlated to the block's `id`. -/
def toolResultFor (exec : ToolExec) (t : ToolUseData) : ToolResult :=
  match exec t.name t.input with
  | .ok s => ⟨t.id, s⟩
  | .error e => ⟨t.id, "Error executing tool: " ++ e⟩

/-- Outcome of the gateway call of one iteration, as observed on the ghost
trace: `skipped` when the safety limit fired before any call was made. -/
inductive GwOutcome where
  | skipped : GwOutcome
  | failed : String → GwOutcome
  | ok : List ContentBlock → GwOutcome
deriving DecidableEq, Repr

/-- Ghost record of one loop iteration, used only to state properties:
which gateway outcome it saw, which strings it appended to `final_text`
(text blocks, then diagnostics), which tool-result bundle it appended
(if any), and which messages it appended to the conversation history. -/
structure IterRecord where
  gwResult : GwOutcome
  texts : List String
  diags : List String
  results : Option (List ToolResult)
  appended : List Message
deriving DecidableEq, Repr

/-- The mutable state of `process_query_with_iterative_tools`' while-loop.
`trace` is ghost instrumentation (one record per iteration); the other
fields are the source's `conversation_history`, `final_text`,
`consecutive_no_tool_responses`, `tool_execution_history`, and a count of
gateway calls attempted. -/
structure LoopState where
  history : List Message
  final_text : List String
  consecutive : Nat
  tool_history : List (List String)
  modelCalls : Nat
  trace : List IterRecord
deriving DecidableEq, Repr

/-- Apply one iteration record to the state: extend `final_text` with the
iteration's texts then diagnostics, extend the history with the messages it
appended, and push the ghost record. -/
def pushRec (st : LoopState) (r : IterRecord) : LoopState :=
  { st with
      final_text := st.final_text ++ (r.texts ++ r.diags)
      history := st.history ++ r.appended
      trace := st.trace ++ [r] }

/-- Count one attempted gateway call. -/
def withCall (st : LoopState) : LoopState := { st with modelCalls := st.modelCalls + 1 }

/-- Result of one loop iteration: stop (`break`) or keep looping. -/
inductive StepOut where
  | halt : LoopState → StepOut
  | next : LoopState → StepOut
deriving DecidableEq, Repr

/-- The state carried by a step outcome. -/
def StepOut.state : StepOut → LoopState
  | .halt st => st
  | .next st => st

/-- Whether the step ended the loop. -/
def StepOut.isHalt : StepOut → Bool
  | .halt _ => true
  | .next _ => false

/-- Record for the safety-limit iteration: no gateway call, one diagnostic. -/
def emergencyRecord (safety_limit : Nat) : IterRecord :=
  ⟨GwOutcome.skipped, [], [emergencyMsg safety_limit], none, []⟩

/-- Record for an iteration whose gateway call failed. -/
def apiErrorRecord (iteration : Nat) (e : String) : IterRecord :=
  ⟨GwOutcome.failed e, [], [apiErrorMsg iteration e], none, []⟩

/-- Record for an iteration with no tool-use blocks: its text blocks go to
`final_text` and the assistant message is appended to the history. -/
def noToolRecord (blocks : List ContentBlock) : IterRecord :=
  ⟨GwOutcome.ok blocks, textBlocks blocks, [], none, [assistantMsg blocks]⟩

/-- Record for a stalled tool iteration: its text blocks were already
collected, the stall diagnostic is appended, and the loop breaks before
appending the assistant message or running any tool. -/
def toolRecordStall (blocks : List ContentBlock) : IterRecord :=
  ⟨GwOutcome.ok blocks, textBlocks blocks, [loopWarningMsg], none, []⟩

/-- Record for a normal tool iteration: the assistant message and the single
user message bundling all tool results are appended to the history. -/
def toolRecordRun (exec : ToolExec) (blocks : List ContentBlock) : IterRecord :=
  ⟨GwOutcome.ok blocks, textBlocks blocks, [],
    some ((toolUses blocks).map (toolResultFor exec)),
    [assistantMsg blocks, toolResultsMsg ((toolUses blocks).map (toolResultFor exec))]⟩

/-- The branch taken when the response has no tool-use blocks: increment the
consecutive no-tool counter, append the assistant message, and stop once the
counter has reached 2. -/
def noToolStep (blocks : List ContentBlock) (st : LoopState) : StepOut :=
  if st.consecutive + 1 ≥ 2 then
    .halt (pushRec { st with consecutive := st.consecutive + 1 } (noToolRecord blocks))
  else
    .next (pushRec { st with consecutive := st.consecutive + 1 } (noToolRecord blocks))

/-- The branch taken when the response has tool-use blocks: reset the
counter, record the iteration's tool signatures, detect stalls, and
otherwise execute every tool call in order and bundle the results. -/
def toolStep (exec : ToolExec) (blocks : List ContentBlock) (st : LoopState) : StepOut :=
  if stallDetected (st.tool_history ++ [(toolUses blocks).map toolSignature]) then
    .halt (pushRec
      { st with consecutive := 0,
                tool_history := st.tool_history ++ [(toolUses blocks).map toolSignature] }
      (toolRecordStall blocks))
  else
    .next (pushRec
      { st with consecutive := 0,
                tool_history := st.tool_history ++ [(toolUses blocks).map toolSignature] }
      (toolRecordRun exec blocks))

/-- One iteration of the while-loop, with the already-incremented iteration
counter: the safety check (`iteration > safety_limit`) fires before any
gateway call; otherwise the gateway is called and the response's blocks are
partitioned and processed. -/
def stepIter (gw : Gateway) (exec : ToolExec) (safety_limit iteration : Nat)
    (st : LoopState) : StepOut :=
  if safety_limit < iteration then
    .halt (pushRec st (emergencyRecord safety_limit))
  else
    match gw st.history with
    | .error e => .halt (pushRec (withCall st) (apiErrorRecord iteration e))
    | .ok blocks =>
      if (toolUses blocks).isEmpty then noToolStep blocks (withCall st)
      else toolStep exec blocks (withCall st)

/-- The while-loop of `process_query_with_iterative_tools`, driven by fuel.
The loop can pass the top at most `safety_limit + 1` times (the last pass
hits the emergency stop without calling the gateway), so fuel
`safety_limit + 1` is never exhausted. -/
def runLoop (gw : Gateway) (exec : ToolExec) (safety_limit : Nat) :
    Nat → Nat → LoopState → LoopState
  | 0, _, st => st
  | Nat.succ fuel, it, st =>
    match stepIter gw exec safety_limit (it + 1) st with
    | .halt st' => st'
    | .next st' => runLoop gw exec safety_limit fuel (it + 1) st'

/-- Initial loop state: the new user message is appended to the (global)
conversation history before the loop starts; all accumulators start empty. -/
def initState (history0 : List Message) (query : String) : LoopState :=
  ⟨history0 ++ [userMsg query], [], 0, [], 0, []⟩

/-- `process_query_with_iterative_tools(mcp_client, query, safety_limit)`:
runs the iterative tool-calling loop on the given conversation history and
returns `"\n".join(final_text)` together with the final loop state.
The gateway and tool invoker are passed as functions; the available-tools
snapshot is a fixed part of the gateway closure.  (The outer try/except of
the source is unreachable in this model: gateway and tool failures are
already handled inside the loop.) -/
def process_query_with_iterative_tools (gw : Gateway) (exec : ToolExec)
    (safety_limit : Nat) (history0 : List Message) (query : String) :
    String × LoopState :=
  let stf := runLoop gw exec safety_limit (safety_limit + 1) 0 (initState history0 query)
  (String.intercalate "\n" stf.final_text, stf)

/-! The Flask request layer of `website_app.py`: the session registry
(`chat_sessions`), whole-file persistence (`save_chat_history` /
`load_chat_history`), and the `/api/chat` handler (`chat`).  Timestamps are
modelled by their ISO-8601 string representation (the only interface the
code uses: `datetime.isoformat` / `datetime.fromisoformat`, which round
trip). -/

/-- A timestamp, identified by its ISO-8601 rendering. -/
structure Datetime where
  iso : String
deriving DecidableEq, Repr

/-- `datetime.isoformat()`. -/
def Datetime.isoformat (d : Datetime) : String := d.iso

/-- `datetime.fromisoformat(s)`. -/
def Datetime.fromisoformat (s : String) : Datetime := ⟨s⟩

/-- One stored exchange, as appended to a session's `messages` list.  Its
`timestamp` field is stored as an ISO string already at insertion time. -/
structure MessagePair where
  timestamp : String
  user_message : String
  assistant_response : String
  message_id : String
deriving DecidableEq, Repr

/-- One entry of `chat_sessions`: creation time, message count, exchange
list, and the last-activity time (absent until the first completed
exchange--the key is only set after a successful message). -/
structure SessionData where
  created_at : Datetime
  message_count : Nat
  messages : List MessagePair
  last_activity : Option Datetime
deriving DecidableEq, Repr

/-- One entry of the persisted JSON document: the same data with the two
datetime fields replaced by their ISO strings. -/
structure SerializedSession where
  created_at : String
  message_count : Nat
  messages : List MessagePair
  last_activity : Option String
deriving DecidableEq, Repr

/-- Serialize one session for `json.dump` (the datetime-to-ISO conversion
done by `save_chat_history`). -/
def serializeSession (s : SessionData) : SerializedSession :=
  ⟨s.created_at.isoformat, s.message_count, s.messages,
    s.last_activity.map Datetime.isoformat⟩

/-- Rebuild one session from the persisted document (the ISO-to-datetime
conversion done by `load_chat_history`; the `messages` list is always
present in this model). -/
def deserializeSession (s : SerializedSession) : SessionData :=
  ⟨Datetime.fromisoformat s.created_at, s.message_count, s.messages,
    s.last_activity.map Datetime.fromisoformat⟩

/-- `save_chat_history`: the whole registry is serialized into a single
document keyed by conversation id. -/
def save_chat_history (sessions : List (String × SessionData)) :
    List (String × SerializedSession) :=
  sessions.map (fun p => (p.1, serializeSession p.2))

/-- `load_chat_history`: a missing file yields an empty registry; otherwise
every entry is rebuilt from the document. -/
def load_chat_history : Option (List (String × SerializedSession)) →
    List (String × SessionData)
  | none => []
  | some doc => doc.map (fun p => (p.1, deserializeSession p.2))

/-- Look up one key in an ordered association list (Python `dict` access). -/
def getEntry {α : Type} (k : String) : List (String × α) → Option α
  | [] => none
  | (k', v) :: rest => if k' = k then some v else getEntry k rest

/-- Set one key in an ordered association list: replace in place when the
key exists, append otherwise (Python `dict` assignment). -/
def setEntry {α : Type} (k : String) (v : α) : List (String × α) → List (String × α)
  | [] => [(k, v)]
  | (k', v') :: rest => if k' = k then (k, v) :: rest else (k', v') :: setEntry k v rest

/-- The process-wide mutable state of `website_app.py`: the single global
MCP client's `conversation_history`, the `chat_sessions` registry, and the
contents of the persisted history file (`none` when never written). -/
structure ServerState where
  mcp_history : List Message
  chat_sessions : List (String × SessionData)
  savedDoc : Option (List (String × SerializedSession))
deriving DecidableEq, Repr

/-- The JSON body of a `/api/chat` request. -/
structure ChatRequest where
  message : Option String
  conversation_id : Option String
deriving DecidableEq, Repr

/-- The observable outcome of a `/api/chat` request: HTTP status, the
response body's fields, and a ghost flag recording whether the
orchestration loop (and hence the model gateway) was invoked. -/
structure ChatResult where
  status : Nat
  success : Bool
  error : Option String
  response : Option String
  conversation_id : Option String
  message_id : Option String
  ranLoop : Bool
deriving DecidableEq, Repr

/-- Drop leading and trailing whitespace from a character list. -/
def stripChars (l : List Char) : List Char :=
  ((l.dropWhile Char.isWhitespace).reverse.dropWhile Char.isWhitespace).reverse

/-- Python's `str.strip()`: remove leading and trailing whitespace. -/
def strip (s : String) : String := String.mk (stripChars s.data)

/-- The `/api/chat` handler (`chat()` in `website_app.py`): validate the
message, resolve or create the conversation id's registry entry, reject
with 503 when the MCP client's session is not established, otherwise run
the iterative loop on the global shared history, record the exchange on the
session, and persist the whole registry.  `now_create` and `now_msg` stand
for the two `datetime.utcnow()` calls; `freshId` for the generated UUID
used when the request carries no conversation id.  The timeout path of
`run_async_in_thread` is not modelled: the loop always completes. -/
def chat (gw : Gateway) (exec : ToolExec) (mcpAvailable : Bool)
    (now_create now_msg : Datetime) (freshId : String)
    (st : ServerState) (req : ChatRequest) : ChatResult × ServerState :=
  match req.message with
  | none => (⟨400, false, some "Message is required", none, none, none, false⟩, st)
  | some raw =>
    let message := strip raw
    if message = "" then
      (⟨400, false, some "Message cannot be empty", none, none, none, false⟩, st)
    else
      let cid := req.conversation_id.getD freshId
      let st1 :=
        if (getEntry cid st.chat_sessions).isSome then st
        else { st with chat_sessions := setEntry cid ⟨now_create, 0, [], none⟩ st.chat_sessions }
      if mcpAvailable = false then
        (⟨503, false,
          some "Azure CLI service is not available. Please check your connection.",
          none, none, none, false⟩, st1)
      else
        let run := process_query_with_iterative_tools gw exec 100 st1.mcp_history message
        let st2 := { st1 with mcp_history := run.2.history }
        let s := (getEntry cid st2.chat_sessions).getD ⟨now_create, 0, [], none⟩
        let newCount := s.message_count + 1
        let pair : MessagePair :=
          ⟨now_msg.isoformat, message, run.1, cid ++ "_" ++ toString newCount⟩
        let s' : SessionData :=
          ⟨s.created_at, newCount, s.messages ++ [pair], some now_msg⟩
        let st3 := { st2 with chat_sessions := setEntry cid s' st2.chat_sessions }
        let st4 := { st3 with savedDoc := some (save_chat_history st3.chat_sessions) }
        (⟨200, true, none, some run.1, some cid, some pair.message_id, true⟩, st4)

/-! The CLI-path loop of `main.py` (`MCPClient.process_query` together with
`_has_tool_calls` and `_process_tool_calls`).  The gateway and the tool
invoker are modelled as total functions: the `except` branch of
`process_query` (which formats the exception together with a traceback line
number) is not modelled, and `call_tool`'s extracted text is the invoker's
return value. -/

/-- `_has_tool_calls(response)`. -/
def hasToolCallsB (blocks : List ContentBlock) : Bool :=
  blocks.any (fun b => match b with | .tool_use _ => true | .text _ => false)

/-- The assistant content built by `_process_tool_calls`: all text blocks
first, then all tool-use blocks (the source reorders the response's blocks
by kind). -/
def mainAssistantContent (blocks : List ContentBlock) : List ContentBlock :=
  (blocks.filter (fun b => match b with | .text _ => true | .tool_use _ => false)) ++
  (blocks.filter (fun b => match b with | .text _ => false | .tool_use _ => true))

/-- `_process_tool_calls(response)`: append the reordered assistant message,
then for each tool-use block append one separate user message holding that
single tool result (unlike the website loop, one turn per result). -/
def processToolCalls (exec : String → ToolInput → String)
    (history : List Message) (blocks : List ContentBlock) : List Message :=
  (history ++ [assistantMsg (mainAssistantContent blocks)]) ++
    (toolUses blocks).map (fun t => toolResultsMsg [⟨t.id, exec t.name t.input⟩])

/-- State of the CLI-path run: the conversation history plus a ghost list
of every model response received, in call order. -/
structure MainRunState where
  history : List Message
  calls : List (List ContentBlock)
deriving DecidableEq, Repr

/-- The while-loop of `MCPClient.process_query`: the remaining fuel is
`max_iterations - iteration_count`.  A response with tool calls is
processed and the loop continues; the first response without tool calls is
appended as the assistant turn and its blocks' texts are joined with no
separator and returned.  When the fuel runs out the function falls off the
loop and returns `None`. -/
def mainLoop (gw : List Message → List ContentBlock)
    (exec : String → ToolInput → String) :
    Nat → MainRunState → Option String × MainRunState
  | 0, st => (none, st)
  | Nat.succ fuel, st =>
    if hasToolCallsB (gw st.history) then
      mainLoop gw exec fuel
        ⟨processToolCalls exec st.history (gw st.history), st.calls ++ [gw st.history]⟩
    else
      (some (String.join (textBlocks (gw st.history))),
        ⟨st.history ++ [assistantMsg (gw st.history)], st.calls ++ [gw st.history]⟩)

/-- `MCPClient.process_query(query)`: append the user message to the
conversation history, then run up to `max_iterations` (10) model calls. -/
def MCPClient.process_query (gw : List Message → List ContentBlock)
    (exec : String → ToolInput → String) (history0 : List Message)
    (query : String) (max_iterations : Nat) : Option String × MainRunState :=
  mainLoop gw exec max_iterations ⟨history0 ++ [userMsg query], []⟩

/-! Ghost-trace predicates used to state the loop's properties, and the
stub gateways and tool invokers used by the concrete test-property runs. -/

/-- All strings an iteration trace contributed to `final_text`: per
iteration, its text blocks then its diagnostics, in order. -/
def flatTexts : List IterRecord → List String
  | [] => []
  | r :: rest => (r.texts ++ r.diags) ++ flatTexts rest

/-- What one iteration may contribute to `final_text`: exactly the text
blocks of its model response (nothing when no call was made or the call
failed), plus diagnostics drawn only from the three fixed diagnostic
shapes--never tool-result content. -/
def recTextsOk (safety_limit : Nat) (r : IterRecord) : Prop :=
  (∀ blocks, r.gwResult = GwOutcome.ok blocks → r.texts = textBlocks blocks) ∧
  ((r.gwResult = GwOutcome.skipped ∨ ∃ e, r.gwResult = GwOutcome.failed e) → r.texts = []) ∧
  (∀ d ∈ r.diags,
    d = emergencyMsg safety_limit ∨ d = loopWarningMsg ∨ ∃ it e, d = apiErrorMsg it e)

/-- When an iteration appended a tool-result bundle, the bundle holds one
result per tool-use block of its response (each built by `toolResultFor`,
in order, with no retry), and the iteration appended exactly the assistant
turn followed by the single bundled tool-results turn. -/
def recResultsOk (exec : ToolExec) (r : IterRecord) : Prop :=
  ∀ rs, r.results = some rs →
    ∃ blocks, r.gwResult = GwOutcome.ok blocks ∧
      rs = (toolUses blocks).map (toolResultFor exec) ∧
      r.appended = [assistantMsg blocks, toolResultsMsg rs]

/-- The loop invariant tying `final_text` to the ghost trace. -/
def traceInv (exec : ToolExec) (safety_limit : Nat) (st : LoopState) : Prop :=
  st.final_text = flatTexts st.trace ∧
  ∀ r ∈ st.trace, recTextsOk safety_limit r ∧ recResultsOk exec r

/-- Stub gateway that always returns the identical single tool-use block
`{name: "x", input: {a: 1}}`. -/
def gwStall : Gateway :=
  fun _ => Except.ok [ContentBlock.tool_use ⟨"toolu_1", "x", [("a", JsonVal.num 1)]⟩]

/-- Stub gateway that always returns a tool-use block whose input varies on
every call (the conversation grows between calls), defeating stall
detection. -/
def gwVarying : Gateway :=
  fun h => Except.ok [ContentBlock.tool_use ⟨"t", "x", [("a", JsonVal.num (Int.ofNat h.length))]⟩]

/-- Stub gateway that always returns a single text block and no tool use. -/
def gwTextOnly : Gateway := fun _ => Except.ok [ContentBlock.text "All done."]

/-- Stub gateway whose first call requests one tool use and whose later
calls return text only. -/
def gwOneToolThenText : Gateway :=
  fun h =>
    if h.length ≤ 1 then
      Except.ok [ContentBlock.tool_use ⟨"toolu_9", "run_az", [("cmd", JsonVal.str "az vm list")]⟩]
    else Except.ok [ContentBlock.text "done"]

/-- Stub tool invoker that always succeeds. -/
def execOk : ToolExec := fun _ _ => Except.ok "ok"

/-- Stub tool invoker that always fails. -/
def execFail : ToolExec := fun _ _ => Except.error "boom"

/-- A concrete timestamp used by the request-layer scenarios. -/
def dtA : Datetime := ⟨"2024-01-01T00:00:00"⟩

/-- A later concrete timestamp used by the request-layer scenarios. -/
def dtB : Datetime := ⟨"2024-01-01T00:05:00"⟩

/-- Server state after one `/api/chat` request for conversation id `a`
(message `m1`) on a fresh registry, with the MCP service available and the
text-only stub gateway. -/
def c1StateA : ServerState :=
  (chat gwTextOnly execOk true dtA dtA "uuid-a" ⟨[], [], none⟩ ⟨some "m1", some "a"⟩).2

/-- Server state after a further `/api/chat` request for the distinct
conversation id `b` (message `m2`). -/
def c1StateB : ServerState :=
  (chat gwTextOnly execOk true dtB dtB "uuid-b" c1StateA ⟨some "m2", some "b"⟩).2

/-- Stub gateway for the CLI-path loop: the first call requests one tool
use, later calls return text only. -/
def gwMainOneTool : List Message → List ContentBlock :=
  fun h =>
    if h.length ≤ 1 then
      [ContentBlock.text "calling", ContentBlock.tool_use ⟨"t1", "az", [("c", JsonVal.str "ls")]⟩]
    else [ContentBlock.text "final answer"]

/-- Stub tool invoker for the CLI-path loop (always returns text). -/
def execMain : String → ToolInput → String := fun _ _ => "out"

/-! Helper lemmas about the ghost trace and the loop invariant. -/

theorem pushRec_trace (st : LoopState) (r : IterRecord) :
    (pushRec st r).trace = st.trace ++ [r] := rfl

theorem pushRec_final_text (st : LoopState) (r : IterRecord) :
    (pushRec st r).final_text = st.final_text ++ (r.texts ++ r.diags) := rfl

theorem pushRec_modelCalls (st : LoopState) (r : IterRecord) :
    (pushRec st r).modelCalls = st.modelCalls := rfl

theorem flatTexts_append (t1 t2 : List IterRecord) :
    flatTexts (t1 ++ t2) = flatTexts t1 ++ flatTexts t2 := by
  induction t1 with
  | nil => simp [flatTexts]
  | cons r t ih => simp [flatTexts, ih]

theorem traceInv_of_eq (exec : ToolExec) (sl : Nat) {st st' : LoopState}
    (h1 : st'.final_text = st.final_text) (h2 : st'.trace = st.trace)
    (h : traceInv exec sl st) : traceInv exec sl st' := by
  unfold traceInv at h ⊢
  rw [h1, h2]
  exact h

theorem traceInv_pushRec {exec : ToolExec} {sl : Nat} {st : LoopState} {r : IterRecord}
    (h : traceInv exec sl st) (h1 : recTextsOk sl r) (h2 : recResultsOk exec r) :
    traceInv exec sl (pushRec st r) := by
  obtain ⟨hft, hall⟩ := h
  constructor
  · rw [pushRec_final_text, pushRec_trace, flatTexts_append, hft]
    simp [flatTexts]
  · intro r' hr'
    rw [pushRec_trace] at hr'
    rcases List.mem_append.1 hr' with h' | h'
    · exact hall r' h'
    · rw [List.mem_singleton.1 h']
      exact ⟨h1, h2⟩

theorem recTextsOk_emergency (sl : Nat) : recTextsOk sl (emergencyRecord sl) := by
  refine ⟨?_, ?_, ?_⟩
  · intro blocks h
    simp [emergencyRecord] at h
  · intro _
    rfl
  · intro d hd
    rcases List.mem_singleton.1 hd with rfl
    exact Or.inl rfl

theorem recTextsOk_apiError (sl it : Nat) (e : String) :
    recTextsOk sl (apiErrorRecord it e) := by
  refine ⟨?_, ?_, ?_⟩
  · intro blocks h
    simp [apiErrorRecord] at h
  · intro _
    rfl
  · intro d hd
    rcases List.mem_singleton.1 hd with rfl
    exact Or.inr (Or.inr ⟨it, e, rfl⟩)

theorem recTextsOk_noTool (sl : Nat) (blocks : List ContentBlock) :
    recTextsOk sl (noToolRecord blocks) := by
  refine ⟨?_, ?_, ?_⟩
  · intro blocks' h
    simp only [noToolRecord] at h ⊢
    cases h
    rfl
  · intro h
    simp [noToolRecord] at h
  · intro d hd
    simp [noToolRecord] at hd

theorem recTextsOk_toolStall (sl : Nat) (blocks : List ContentBlock) :
    recTextsOk sl (toolRecordStall blocks) := by
  refine ⟨?_, ?_, ?_⟩
  · intro blocks' h
    simp only [toolRecordStall] at h ⊢
    cases h
    rfl
  · intro h
    simp [toolRecordStall] at h
  · intro d hd
    rcases List.mem_singleton.1 hd with rfl
    exact Or.inr (Or.inl rfl)

theorem recTextsOk_toolRun (sl : Nat) (exec : ToolExec) (blocks : List ContentBlock) :
    recTextsOk sl (toolRecordRun exec blocks) := by
  refine ⟨?_, ?_, ?_⟩
  · intro blocks' h
    simp only [toolRecordRun] at h ⊢
    cases h
    rfl
  · intro h
    simp [toolRecordRun] at h
  · intro d hd
    simp [toolRecordRun] at hd

theorem recResultsOk_of_none {exec : ToolExec} {r : IterRecord} (h : r.results = none) :
    recResultsOk exec r := by
  intro rs hrs
  rw [h] at hrs
  cases hrs

theorem recResultsOk_toolRun (exec : ToolExec) (blocks : List ContentBlock) :
    recResultsOk exec (toolRecordRun exec blocks) := by
  intro rs hrs
  simp only [toolRecordRun] at hrs
  cases hrs
  exact ⟨blocks, rfl, rfl, rfl⟩

theorem stepIter_traceInv (gw : Gateway) (exec : ToolExec) (sl it : Nat) (st : LoopState)
    (h : traceInv exec sl st) : traceInv exec sl (stepIter gw exec sl it st).state := by
  unfold stepIter
  split
  · exact traceInv_pushRec h (recTextsOk_emergency sl) (recResultsOk_of_none rfl)
  · cases hgw : gw st.history with
    | error e =>
      simp only [hgw]
      exact traceInv_pushRec (traceInv_of_eq exec sl rfl rfl h)
        (recTextsOk_apiError sl it e) (recResultsOk_of_none rfl)
    | ok blocks =>
      simp only [hgw]
      split
      · unfold noToolStep
        split <;>
          exact traceInv_pushRec (traceInv_of_eq exec sl rfl rfl h)
            (recTextsOk_noTool sl blocks) (recResultsOk_of_none rfl)
      · unfold toolStep
        split
        · exact traceInv_pushRec (traceInv_of_eq exec sl rfl rfl h)
            (recTextsOk_toolStall sl blocks) (recResultsOk_of_none rfl)
        · exact traceInv_pushRec (traceInv_of_eq exec sl rfl rfl h)
            (recTextsOk_toolRun sl exec blocks) (recResultsOk_toolRun exec blocks)

theorem runLoop_traceInv (gw : Gateway) (exec : ToolExec) (sl : Nat) (fuel : Nat) :
    ∀ it st, traceInv exec sl st → traceInv exec sl (runLoop gw exec sl fuel it st) := by
  induction fuel with
  | zero =>
    intro it st h
    exact h
  | succ fuel ih =>
    intro it st h
    have hstep := stepIter_traceInv gw exec sl (it + 1) st h
    rw [runLoop]
    cases hs : stepIter gw exec sl (it + 1) st with
    | halt st' =>
      rw [hs] at hstep
      exact hstep
    | next st' =>
      rw [hs] at hstep
      exact ih (it + 1) st' hstep

theorem traceInv_init (exec : ToolExec) (sl : Nat) (history0 : List Message) (q : String) :
    traceInv exec sl (initState history0 q) := by
  constructor
  · rfl
  · intro r hr
    simp [initState] at hr

theorem pq_traceInv (gw : Gateway) (exec : ToolExec) (sl : Nat)
    (history0 : List Message) (q : String) :
    traceInv exec sl (process_query_with_iterative_tools gw exec sl history0 q).2 :=
  runLoop_traceInv gw exec sl (sl + 1) 0 (initState history0 q)
    (traceInv_init exec sl history0 q)

theorem stepIter_shape (gw : Gateway) (exec : ToolExec) (sl it : Nat) (st : LoopState) :
    ∃ st₀ r, st₀.trace = st.trace ∧
      ((stepIter gw exec sl it st = StepOut.halt (pushRec st₀ r) ∧ r.results = none ∧
          (st₀.modelCalls = st.modelCalls ∨ (st₀.modelCalls = st.modelCalls + 1 ∧ it ≤ sl))) ∨
       (stepIter gw exec sl it st = StepOut.next (pushRec st₀ r) ∧ it ≤ sl ∧
          st₀.modelCalls = st.modelCalls + 1)) := by
  unfold stepIter
  split
  · exact ⟨st, emergencyRecord sl, rfl, Or.inl ⟨rfl, rfl, Or.inl rfl⟩⟩
  · rename_i hle
    have hit : it ≤ sl := Nat.le_of_not_lt hle
    cases hgw : gw st.history with
    | error e =>
      simp only [hgw]
      exact ⟨withCall st, apiErrorRecord it e, rfl, Or.inl ⟨rfl, rfl, Or.inr ⟨rfl, hit⟩⟩⟩
    | ok blocks =>
      simp only [hgw]
      split
      · unfold noToolStep
        split
        · exact ⟨{ withCall st with consecutive := st.consecutive + 1 },
            noToolRecord blocks, rfl, Or.inl ⟨rfl, rfl, Or.inr ⟨rfl, hit⟩⟩⟩
        · exact ⟨{ withCall st with consecutive := st.consecutive + 1 },
            noToolRecord blocks, rfl, Or.inr ⟨rfl, hit, rfl⟩⟩
      · unfold toolStep
        split
        · exact ⟨({ withCall st with
                      consecutive := 0,
                      tool_history := st.tool_history ++ [(toolUses blocks).map toolSignature] }),
            toolRecordStall blocks, rfl, Or.inl ⟨rfl, rfl, Or.inr ⟨rfl, hit⟩⟩⟩
        · exact ⟨({ withCall st with
                      consecutive := 0,
                      tool_history := st.tool_history ++ [(toolUses blocks).map toolSignature] }),
            toolRecordRun exec blocks, rfl, Or.inr ⟨rfl, hit, rfl⟩⟩

theorem runLoop_modelCalls_le (gw : Gateway) (exec : ToolExec) (sl : Nat) (fuel : Nat) :
    ∀ it st, (runLoop gw exec sl fuel it st).modelCalls ≤ st.modelCalls + (sl - it) := by
  induction fuel with
  | zero =>
    intro it st
    exact Nat.le_add_right _ _
  | succ fuel ih =>
    intro it st
    obtain ⟨st₀, r, _, hcase | hcase⟩ := stepIter_shape gw exec sl (it + 1) st
    · obtain ⟨hs, _, hmc⟩ := hcase
      rw [runLoop, hs]
      rw [pushRec_modelCalls]
      rcases hmc with hmc | ⟨hmc, hit⟩
      · omega
      · omega
    · obtain ⟨hs, hit, hmc⟩ := hcase
      rw [runLoop, hs]
      have := ih (it + 1) (pushRec st₀ r)
      rw [pushRec_modelCalls, hmc] at this
      show (runLoop gw exec sl fuel (it + 1) (pushRec st₀ r)).modelCalls ≤
        st.modelCalls + (sl - it)
      omega

theorem getLast?_append_some {α : Type} (l₁ l₂ : List α) (r : α)
    (h : l₂.getLast? = some r) : (l₁ ++ l₂).getLast? = some r := by
  have hne : l₂ ≠ [] := by
    intro he
    rw [he] at h
    cases h
  rw [List.getLast?_append_of_ne_nil l₁ hne]
  exact h

theorem runLoop_last_results_none (gw : Gateway) (exec : ToolExec) (sl : Nat) (fuel : Nat) :
    ∀ it st, 1 ≤ fuel → fuel + it = sl + 1 →
    ∃ d, (runLoop gw exec sl fuel it st).trace = st.trace ++ d ∧
      ∃ r, d.getLast? = some r ∧ r.results = none := by
  induction fuel with
  | zero =>
    intro it st h1 _
    cases h1
  | succ fuel ih =>
    intro it st _ hinv
    obtain ⟨st₀, r, htr, hcase | hcase⟩ := stepIter_shape gw exec sl (it + 1) st
    · obtain ⟨hs, hres, _⟩ := hcase
      rw [runLoop, hs]
      refine ⟨[r], ?_, r, rfl, hres⟩
      rw [pushRec_trace, htr]
    · obtain ⟨hs, hit, _⟩ := hcase
      rw [runLoop, hs]
      have hfuel : 1 ≤ fuel := by omega
      have hinv' : fuel + (it + 1) = sl + 1 := by omega
      obtain ⟨d', hd', r', hlast, hres⟩ := ih (it + 1) (pushRec st₀ r) hfuel hinv'
      refine ⟨r :: d', ?_, r', ?_, hres⟩
      · rw [hd', pushRec_trace, htr]
        simp
      · have : r :: d' = [r] ++ d' := rfl
        rw [this]
        exact getLast?_append_some [r] d' r' hlast

theorem pq_last_results_none (gw : Gateway) (exec : ToolExec) (sl : Nat)
    (history0 : List Message) (q : String) :
    ∃ r, (process_query_with_iterative_tools gw exec sl history0 q).2.trace.getLast? = some r ∧
      r.results = none := by
  obtain ⟨d, hd, r, hlast, hres⟩ :=
    runLoop_last_results_none gw exec sl (sl + 1) 0 (initState history0 q)
      (by omega) (by omega)
  refine ⟨r, ?_, hres⟩
  show (runLoop gw exec sl (sl + 1) 0 (initState history0 q)).trace.getLast? = some r
  rw [hd]
  have : (initState history0 q).trace = [] := rfl
  rw [this, List.nil_append]
  exact hlast

theorem toolResultFor_id (exec : ToolExec) (t : ToolUseData) :
    (toolResultFor exec t).tool_use_id = t.id := by
  unfold toolResultFor
  cases exec t.name t.input <;> rfl

theorem stepIter_eq_noTool {gw : Gateway} {exec : ToolExec} {sl it : Nat} {st : LoopState}
    {blocks : List ContentBlock} (h : ¬ sl < it) (hgw : gw st.history = Except.ok blocks)
    (hemp : (toolUses blocks).isEmpty = true) :
    stepIter gw exec sl it st = noToolStep blocks (withCall st) := by
  unfold stepIter
  rw [if_neg h, hgw]
  simp [hemp]

theorem stepIter_eq_tool {gw : Gateway} {exec : ToolExec} {sl it : Nat} {st : LoopState}
    {blocks : List ContentBlock} (h : ¬ sl < it) (hgw : gw st.history = Except.ok blocks)
    (hemp : (toolUses blocks).isEmpty = false) :
    stepIter gw exec sl it st = toolStep exec blocks (withCall st) := by
  unfold stepIter
  rw [if_neg h, hgw]
  simp [hemp]

theorem noToolStep_state_consecutive (blocks : List ContentBlock) (st : LoopState) :
    (noToolStep blocks st).state.consecutive = st.consecutive + 1 := by
  unfold noToolStep
  split <;> rfl

theorem noToolStep_isHalt_iff (blocks : List ContentBlock) (st : LoopState) :
    (noToolStep blocks st).isHalt = true ↔ 2 ≤ st.consecutive + 1 := by
  unfold noToolStep
  split
  · rename_i h
    simpa [StepOut.isHalt] using h
  · rename_i h
    simp [StepOut.isHalt]
    omega

theorem toolStep_state_consecutive (exec : ToolExec) (blocks : List ContentBlock)
    (st : LoopState) : (toolStep exec blocks st).state.consecutive = 0 := by
  unfold toolStep
  split <;> rfl

/-! The claim theorems. -/

/-- Claim C2: for every run of `process_query_with_iterative_tools`, under
any gateway and tool behavior, the returned string equals the newline-join
of every text block emitted across all iterations, in iteration order and
within-iteration order, and never includes tool-result content directly:
per iteration the emitted strings are exactly the text blocks of its model
response (in original order, nothing when no call was made or the call
failed), followed only by diagnostics drawn from the three fixed
diagnostic shapes--tool-result content never reaches the returned text. -/
theorem C2_returned_text_is_join_of_text_blocks (gw : Gateway) (exec : ToolExec)
    (sl : Nat) (history0 : List Message) (q : String) :
    (process_query_with_iterative_tools gw exec sl history0 q).1 =
      String.intercalate "\n"
        (flatTexts (process_query_with_iterative_tools gw exec sl history0 q).2.trace) ∧
    ∀ r ∈ (process_query_with_iterative_tools gw exec sl history0 q).2.trace,
      (∀ blocks, r.gwResult = GwOutcome.ok blocks → r.texts = textBlocks blocks) ∧
      ((r.gwResult = GwOutcome.skipped ∨ ∃ e, r.gwResult = GwOutcome.failed e) →
        r.texts = []) ∧
      (∀ d ∈ r.diags,
        d = emergencyMsg sl ∨ d = loopWarningMsg ∨ ∃ it e, d = apiErrorMsg it e) := by
  obtain ⟨hft, hall⟩ := pq_traceInv gw exec sl history0 q
  constructor
  · have h1 : (process_query_with_iterative_tools gw exec sl history0 q).1 =
      String.intercalate "\n"
        (process_query_with_iterative_tools gw exec sl history0 q).2.final_text := rfl
    rw [h1, hft]
  · intro r hr
    exact (hall r hr).1

/-- Witness for C2 on the text-only stub gateway. -/
theorem C2_witness :
    (process_query_with_iterative_tools gwTextOnly execOk 100 [] "hi").1 =
      String.intercalate "\n"
        (flatTexts (process_query_with_iterative_tools gwTextOnly execOk 100 [] "hi").2.trace) ∧
    (noToolRecord [ContentBlock.text "All done."]).texts =
      textBlocks [ContentBlock.text "All done."] :=
  ⟨(C2_returned_text_is_join_of_text_blocks gwTextOnly execOk 100 [] "hi").1,
   ((C2_returned_text_is_join_of_text_blocks gwTextOnly execOk 100 [] "hi").2
      (noToolRecord [ContentBlock.text "All done."]) (by decide)).1
      [ContentBlock.text "All done."] rfl⟩

/-- Claim C3: with a stub gateway that on every call returns the identical
response holding a single tool-use block (name `x`, input `{a: 1}`), the
loop terminates after exactly 3 iterations (3 model calls) with the stall
diagnostic appended to the returned text; the safety ceiling (100) is
never reached, and the termination is a normal completion: the returned
string is the newline-join of the accumulated text. -/
theorem C3_stall_terminates_after_three_iterations :
    (process_query_with_iterative_tools gwStall execOk 100 [] "list my vms").2.modelCalls = 3 ∧
    (process_query_with_iterative_tools gwStall execOk 100 [] "list my vms").2.trace.length = 3 ∧
    (process_query_with_iterative_tools gwStall execOk 100 [] "list my vms").2.final_text.getLast?
      = some loopWarningMsg ∧
    (process_query_with_iterative_tools gwStall execOk 100 [] "list my vms").2.modelCalls < 100 ∧
    (process_query_with_iterative_tools gwStall execOk 100 [] "list my vms").1 =
      String.intercalate "\n"
        (process_query_with_iterative_tools gwStall execOk 100 [] "list my vms").2.final_text := by
  refine ⟨by decide, by decide, by decide, by decide, rfl⟩

/-- Claim C4: for every gateway and tool behavior the loop attempts at most
`safety_limit` model calls; and with a stub gateway returning a tool-use
block whose input differs on every call (defeating stall detection) and
the default limit 100, the loop makes exactly 100 model calls and appends
the ceiling diagnostic to the returned text. -/
theorem C4_safety_ceiling :
    (∀ (gw : Gateway) (exec : ToolExec) (sl : Nat) (history0 : List Message) (q : String),
      (process_query_with_iterative_tools gw exec sl history0 q).2.modelCalls ≤ sl) ∧
    (process_query_with_iterative_tools gwVarying execOk 100 [] "q").2.modelCalls = 100 ∧
    (process_query_with_iterative_tools gwVarying execOk 100 [] "q").2.final_text.getLast?
      = some (emergencyMsg 100) := by
  refine ⟨?_, by decide, by decide⟩
  intro gw exec sl history0 q
  have h := runLoop_modelCalls_le gw exec sl (sl + 1) 0 (initState history0 q)
  have h0 : (initState history0 q).modelCalls = 0 := rfl
  show (runLoop gw exec sl (sl + 1) 0 (initState history0 q)).modelCalls ≤ sl
  omega

/-- Claim C5: with a stub gateway returning text-only, no-tool-use
responses, the loop terminates after exactly 2 iterations (2 model calls)
with the counter at 2; and in general the consecutive no-tool counter is
reset to 0 by any iteration whose response contains tool-use blocks,
incremented by any iteration whose response contains none, and such an
iteration ends the loop exactly when the incremented counter reaches 2. -/
theorem C5_two_consecutive_no_tool_responses_terminate :
    ((process_query_with_iterative_tools gwTextOnly execOk 100 [] "hello").2.modelCalls = 2 ∧
     (process_query_with_iterative_tools gwTextOnly execOk 100 [] "hello").2.trace.length = 2 ∧
     (process_query_with_iterative_tools gwTextOnly execOk 100 [] "hello").2.consecutive = 2) ∧
    (∀ (gw : Gateway) (exec : ToolExec) (sl it : Nat) (st : LoopState)
        (blocks : List ContentBlock), ¬ sl < it → gw st.history = Except.ok blocks →
        (toolUses blocks).isEmpty = false →
        (stepIter gw exec sl it st).state.consecutive = 0) ∧
    (∀ (gw : Gateway) (exec : ToolExec) (sl it : Nat) (st : LoopState)
        (blocks : List ContentBlock), ¬ sl < it → gw st.history = Except.ok blocks →
        (toolUses blocks).isEmpty = true →
        (stepIter gw exec sl it st).state.consecutive = st.consecutive + 1 ∧
        ((stepIter gw exec sl it st).isHalt = true ↔ 2 ≤ st.consecutive + 1)) := by
  refine ⟨by decide, ?_, ?_⟩
  · intro gw exec sl it st blocks h hgw hemp
    rw [stepIter_eq_tool h hgw hemp]
    exact toolStep_state_consecutive exec blocks (withCall st)
  · intro gw exec sl it st blocks h hgw hemp
    rw [stepIter_eq_noTool h hgw hemp]
    exact ⟨noToolStep_state_consecutive blocks (withCall st),
           noToolStep_isHalt_iff blocks (withCall st)⟩

/-- Witness for C5's counter mechanics at concrete step states. -/
theorem C5_witness :
    (stepIter gwStall execOk 100 1 (initState [] "x")).state.consecutive = 0 ∧
    (stepIter gwTextOnly execOk 100 1 (initState [] "x")).state.consecutive =
      (initState [] "x").consecutive + 1 :=
  ⟨(C5_two_consecutive_no_tool_responses_terminate).2.1 gwStall execOk 100 1
      (initState [] "x") [ContentBlock.tool_use ⟨"toolu_1", "x", [("a", JsonVal.num 1)]⟩]
      (by decide) rfl (by decide),
   ((C5_two_consecutive_no_tool_responses_terminate).2.2 gwTextOnly execOk 100 1
      (initState [] "x") [ContentBlock.text "All done."]
      (by decide) rfl (by decide)).1⟩

/-- Claim C6: a failed tool invocation is converted by the loop into a
tool result whose content is the human-readable string
`"Error executing tool: {e}"` correlated to the failing block's id; each
tool-use block yields exactly one invocation and one result (no automatic
retry, the bundle is the in-order map of `toolResultFor` over the blocks);
and no tool-result iteration is ever the last one--the loop always goes on
after executing tools, so a single tool failure never aborts the run. -/
theorem C6_tool_failure_is_nonfatal (gw : Gateway) (exec : ToolExec) (sl : Nat)
    (history0 : List Message) (q : String) :
    (∀ (t : ToolUseData) (e : String), exec t.name t.input = Except.error e →
      toolResultFor exec t = ⟨t.id, "Error executing tool: " ++ e⟩) ∧
    (∀ r ∈ (process_query_with_iterative_tools gw exec sl history0 q).2.trace,
      ∀ rs, r.results = some rs →
        ∃ blocks, r.gwResult = GwOutcome.ok blocks ∧
          rs = (toolUses blocks).map (toolResultFor exec) ∧
          r.appended = [assistantMsg blocks, toolResultsMsg rs]) ∧
    (∃ r, (process_query_with_iterative_tools gw exec sl history0 q).2.trace.getLast?
        = some r ∧ r.results = none) := by
  refine ⟨?_, ?_, pq_last_results_none gw exec sl history0 q⟩
  · intro t e he
    unfold toolResultFor
    rw [he]
  · intro r hr
    exact ((pq_traceInv gw exec sl history0 q).2 r hr).2

/-- Witness for C6 on a run whose first iteration's tool call fails. -/
theorem C6_witness :
    toolResultFor execFail ⟨"toolu_9", "run_az", [("cmd", JsonVal.str "az vm list")]⟩ =
      ⟨"toolu_9", "Error executing tool: boom"⟩ ∧
    (∃ blocks,
      (toolRecordRun execFail
        [ContentBlock.tool_use ⟨"toolu_9", "run_az",
          [("cmd", JsonVal.str "az vm list")]⟩]).gwResult = GwOutcome.ok blocks ∧
      [ToolResult.mk "toolu_9" "Error executing tool: boom"] =
        (toolUses blocks).map (toolResultFor execFail) ∧
      (toolRecordRun execFail
        [ContentBlock.tool_use ⟨"toolu_9", "run_az",
          [("cmd", JsonVal.str "az vm list")]⟩]).appended =
        [assistantMsg blocks,
         toolResultsMsg [ToolResult.mk "toolu_9" "Error executing tool: boom"]]) ∧
    (∃ r, (process_query_with_iterative_tools gwOneToolThenText execFail 100 []
        "x").2.trace.getLast? = some r ∧ r.results = none) :=
  ⟨(C6_tool_failure_is_nonfatal gwOneToolThenText execFail 100 [] "x").1
      ⟨"toolu_9", "run_az", [("cmd", JsonVal.str "az vm list")]⟩ "boom" rfl,
   (C6_tool_failure_is_nonfatal gwOneToolThenText execFail 100 [] "x").2.1
      (toolRecordRun execFail
        [ContentBlock.tool_use ⟨"toolu_9", "run_az", [("cmd", JsonVal.str "az vm list")]⟩])
      (by decide)
      [ToolResult.mk "toolu_9" "Error executing tool: boom"] (by decide),
   (C6_tool_failure_is_nonfatal gwOneToolThenText execFail 100 [] "x").2.2⟩

/-- Claim C7: in every run, whenever an iteration records a tool-result
bundle, the bundle was appended to the conversation log as one single turn
(the assistant turn followed by exactly one user turn holding all the
results), the number of results equals the number of tool-use blocks of
that iteration's model response, and the i-th result's `tool_use_id`
equals the i-th tool-use block's `id`. -/
theorem C7_tool_results_single_bundle_correlated (gw : Gateway) (exec : ToolExec)
    (sl : Nat) (history0 : List Message) (q : String) :
    ∀ r ∈ (process_query_with_iterative_tools gw exec sl history0 q).2.trace,
      ∀ rs, r.results = some rs →
        ∃ blocks, r.gwResult = GwOutcome.ok blocks ∧
          rs.length = (toolUses blocks).length ∧
          (∀ (i : Nat) (h1 : i < rs.length) (h2 : i < (toolUses blocks).length),
            (rs.get ⟨i, h1⟩).tool_use_id = ((toolUses blocks).get ⟨i, h2⟩).id) ∧
          r.appended = [assistantMsg blocks, toolResultsMsg rs] := by
  intro r hr rs hrs
  obtain ⟨blocks, hgw, hmap, happ⟩ :=
    ((pq_traceInv gw exec sl history0 q).2 r hr).2 rs hrs
  subst hmap
  refine ⟨blocks, hgw, List.length_map _ _, ?_, happ⟩
  intro i h1 h2
  rw [List.get_map]
  exact toolResultFor_id exec _

/-- Witness for C7 on a run whose first iteration executes one tool. -/
theorem C7_witness :
    ∃ blocks,
      (toolRecordRun execOk
        [ContentBlock.tool_use ⟨"toolu_9", "run_az",
          [("cmd", JsonVal.str "az vm list")]⟩]).gwResult = GwOutcome.ok blocks ∧
      [ToolResult.mk "toolu_9" "ok"].length = (toolUses blocks).length ∧
      (∀ (i : Nat) (h1 : i < [ToolResult.mk "toolu_9" "ok"].length)
          (h2 : i < (toolUses blocks).length),
        ([ToolResult.mk "toolu_9" "ok"].get ⟨i, h1⟩).tool_use_id =
          ((toolUses blocks).get ⟨i, h2⟩).id) ∧
      (toolRecordRun execOk
        [ContentBlock.tool_use ⟨"toolu_9", "run_az",
          [("cmd", JsonVal.str "az vm list")]⟩]).appended =
        [assistantMsg blocks, toolResultsMsg [ToolResult.mk "toolu_9" "ok"]] :=
  C7_tool_results_single_bundle_correlated gwOneToolThenText execOk 100 [] "x"
    (toolRecordRun execOk
      [ContentBlock.tool_use ⟨"toolu_9", "run_az", [("cmd", JsonVal.str "az vm list")]⟩])
    (by decide)
    [ToolResult.mk "toolu_9" "ok"] (by decide)

/-- Claim C1 counterexample: the orchestration loop appends every run's
turns to the single global MCP client's `conversation_history`.  After a
run for conversation id `a` (message `m1`), the log that the next run--for
the distinct conversation id `b` (message `m2`)--reads and extends already
contains conversation `a`'s user turn, and afterwards the one shared log
holds turns of both conversation ids: turns produced by runs for two
distinct conversation ids ARE accumulated in one shared log, refuting the
claimed per-conversation ownership. -/
theorem C1_shared_turn_log_counterexample :
    userMsg "m1" ∈ c1StateA.mcp_history ∧
    userMsg "m1" ∈ c1StateB.mcp_history ∧
    userMsg "m2" ∈ c1StateB.mcp_history ∧
    ("a" : String) ≠ "b" := by decide

/-- Claim C1 amended: all runs share the single global MCP client's
conversation history regardless of conversation id--after runs for the
distinct ids `a` and `b`, the one shared log is exactly the concatenation
of both runs' turns; per-conversation separation exists only for the
exchange summaries stored in `chat_sessions`. -/
theorem C1_shared_turn_log_amended :
    c1StateB.mcp_history =
      [userMsg "m1", assistantMsg [ContentBlock.text "All done."],
       assistantMsg [ContentBlock.text "All done."],
       userMsg "m2", assistantMsg [ContentBlock.text "All done."],
       assistantMsg [ContentBlock.text "All done."]] ∧
    c1StateA.mcp_history =
      [userMsg "m1", assistantMsg [ContentBlock.text "All done."],
       assistantMsg [ContentBlock.text "All done."]] ∧
    (getEntry "a" c1StateB.chat_sessions).map
        (fun s => s.messages.map MessagePair.user_message) = some ["m1"] ∧
    (getEntry "b" c1StateB.chat_sessions).map
        (fun s => s.messages.map MessagePair.user_message) = some ["m2"] := by decide

/-- Claim C8 counterexample: when the MCP session is unavailable and a
non-empty message arrives for a fresh conversation id, the request is
rejected with 503, but a session registry entry for that id IS created
(the `chat` handler inserts the empty session before the availability
check), refuting the claim that no registry entry is created or changed. -/
theorem C8_registry_entry_created_despite_unavailable :
    (chat gwTextOnly execOk false dtA dtB "u1" ⟨[], [], none⟩
        ⟨some "hi", some "conv1"⟩).1.status = 503 ∧
    getEntry "conv1" (([] : List (String × SessionData))) = none ∧
    getEntry "conv1"
      (chat gwTextOnly execOk false dtA dtB "u1" ⟨[], [], none⟩
        ⟨some "hi", some "conv1"⟩).2.chat_sessions = some ⟨dtA, 0, [], none⟩ := by decide

/-- Claim C8 amended: with the MCP session unavailable and a non-empty
message, the request is rejected with 503 before any model call
(`ranLoop = false`), nothing is persisted, the shared conversation history
is untouched, and existing registry entries are unchanged; however, when
the conversation id is fresh, an empty registry entry for it is created
before the rejection. -/
theorem C8_unavailable_rejected_before_model_call (gw : Gateway) (exec : ToolExec)
    (now_create now_msg : Datetime) (freshId : String) (st : ServerState)
    (req : ChatRequest) (raw : String)
    (hmsg : req.message = some raw) (hm : ¬ strip raw = "") :
    (chat gw exec false now_create now_msg freshId st req).1.status = 503 ∧
    (chat gw exec false now_create now_msg freshId st req).1.ranLoop = false ∧
    (chat gw exec false now_create now_msg freshId st req).2.savedDoc = st.savedDoc ∧
    (chat gw exec false now_create now_msg freshId st req).2.mcp_history = st.mcp_history ∧
    ((getEntry (req.conversation_id.getD freshId) st.chat_sessions).isSome = true →
      (chat gw exec false now_create now_msg freshId st req).2.chat_sessions =
        st.chat_sessions) ∧
    ((getEntry (req.conversation_id.getD freshId) st.chat_sessions).isSome = false →
      (chat gw exec false now_create now_msg freshId st req).2.chat_sessions =
        setEntry (req.conversation_id.getD freshId) ⟨now_create, 0, [], none⟩
          st.chat_sessions) := by
  cases hs : (getEntry (req.conversation_id.getD freshId) st.chat_sessions).isSome with
  | true => refine ⟨?_, ?_, ?_, ?_, ?_, ?_⟩ <;> simp [chat, hmsg, hm, hs]
  | false => refine ⟨?_, ?_, ?_, ?_, ?_, ?_⟩ <;> simp [chat, hmsg, hm, hs]

/-- Witness for the amended C8 on a concrete fresh-id request. -/
theorem C8_witness :
    (chat gwTextOnly execOk false dtA dtB "u1" ⟨[], [], none⟩
        ⟨some " hello ", none⟩).1.status = 503 ∧
    (chat gwTextOnly execOk false dtA dtB "u1" ⟨[], [], none⟩
        ⟨some " hello ", none⟩).1.ranLoop = false ∧
    (chat gwTextOnly execOk false dtA dtB "u1" ⟨[], [], none⟩
        ⟨some " hello ", none⟩).2.savedDoc = none ∧
    (chat gwTextOnly execOk false dtA dtB "u1" ⟨[], [], none⟩
        ⟨some " hello ", none⟩).2.chat_sessions = setEntry "u1" ⟨dtA, 0, [], none⟩ [] := by
  have h := C8_unavailable_rejected_before_model_call gwTextOnly execOk dtA dtB "u1"
    ⟨[], [], none⟩ ⟨some " hello ", none⟩ " hello " rfl (by decide)
  exact ⟨h.1, h.2.1, h.2.2.1, h.2.2.2.2.2 rfl⟩

/-- Claim C9: after a single successful `/api/chat` with message `hello`
on a fresh (empty) registry, the persisted document, restored through
`load_chat_history`, yields the session with `message_count = 1` and
exactly one exchange whose `user_message` is `hello`; the restored session
equals the in-memory one, its timestamp fields having been reconstructed
from their ISO-8601 string representations (`fromisoformat` after
`isoformat` is the identity). -/
theorem C9_persistence_round_trip :
    getEntry "s1" (load_chat_history
      (chat gwTextOnly execOk true dtA dtB "u1" ⟨[], [], none⟩
        ⟨some "hello", some "s1"⟩).2.savedDoc) =
      some ⟨dtA, 1, [⟨Datetime.isoformat dtB, "hello", "All done.\nAll done.", "s1_1"⟩],
        some dtB⟩ ∧
    getEntry "s1" (load_chat_history
      (chat gwTextOnly execOk true dtA dtB "u1" ⟨[], [], none⟩
        ⟨some "hello", some "s1"⟩).2.savedDoc) =
      getEntry "s1"
        (chat gwTextOnly execOk true dtA dtB "u1" ⟨[], [], none⟩
          ⟨some "hello", some "s1"⟩).2.chat_sessions ∧
    Datetime.fromisoformat (Datetime.isoformat dtA) = dtA ∧
    Datetime.fromisoformat (Datetime.isoformat dtB) = dtB := by decide

theorem mainLoop_spec (gw : List Message → List ContentBlock)
    (exec : String → ToolInput → String) (fuel : Nat) :
    ∀ st : MainRunState,
      ∃ d, (mainLoop gw exec fuel st).2.calls = st.calls ++ d ∧
        (∀ c ∈ d, hasToolCallsB c = true ∨ d.getLast? = some c) ∧
        ((mainLoop gw exec fuel st).1 = none →
          d.length = fuel ∧ ∀ c ∈ d, hasToolCallsB c = true) ∧
        (∀ s, (mainLoop gw exec fuel st).1 = some s →
          ∃ c, d.getLast? = some c ∧ hasToolCallsB c = false ∧
            s = String.join (textBlocks c) ∧ 1 ≤ d.length ∧ d.length ≤ fuel) := by
  induction fuel with
  | zero =>
    intro st
    refine ⟨[], by simp [mainLoop], ?_, ?_, ?_⟩
    · intro c hc
      cases hc
    · intro _
      exact ⟨rfl, fun c hc => absurd hc (List.not_mem_nil c)⟩
    · intro s hs
      exact Option.noConfusion hs
  | succ fuel ih =>
    intro st
    by_cases hb : hasToolCallsB (gw st.history) = true
    · obtain ⟨d', hd', hmem', hnone', hsome'⟩ :=
        ih ⟨processToolCalls exec st.history (gw st.history), st.calls ++ [gw st.history]⟩
      have heq : mainLoop gw exec (fuel + 1) st =
          mainLoop gw exec fuel
            ⟨processToolCalls exec st.history (gw st.history),
             st.calls ++ [gw st.history]⟩ := by
        rw [mainLoop, if_pos hb]
      refine ⟨gw st.history :: d', ?_, ?_, ?_, ?_⟩
      · rw [heq, hd']
        simp
      · intro c hc
        rcases List.mem_cons.1 hc with rfl | hc'
        · exact Or.inl hb
        · rcases hmem' c hc' with h | h
          · exact Or.inl h
          · exact Or.inr (getLast?_append_some [gw st.history] d' c h)
      · intro hnone
        rw [heq] at hnone
        obtain ⟨hlen, hall⟩ := hnone' hnone
        constructor
        · simp [hlen]
        · intro c hc
          rcases List.mem_cons.1 hc with rfl | hc'
          · exact hb
          · exact hall c hc'
      · intro s hs
        rw [heq] at hs
        obtain ⟨c, hlast, hnt, hjoin, h1, h2⟩ := hsome' s hs
        refine ⟨c, getLast?_append_some [gw st.history] d' c hlast, hnt, hjoin, ?_, ?_⟩
        · simp only [List.length_cons]
          omega
        · simp only [List.length_cons]
          omega
    · have heq : mainLoop gw exec (fuel + 1) st =
          (some (String.join (textBlocks (gw st.history))),
           ⟨st.history ++ [assistantMsg (gw st.history)], st.calls ++ [gw st.history]⟩) := by
        rw [mainLoop, if_neg hb]
      refine ⟨[gw st.history], by rw [heq], ?_, ?_, ?_⟩
      · intro c hc
        rcases List.mem_singleton.1 hc with rfl
        exact Or.inr rfl
      · intro hnone
        rw [heq] at hnone
        exact Option.noConfusion hnone
      · intro s hs
        rw [heq] at hs
        cases hs
        refine ⟨gw st.history, rfl, ?_, rfl, ?_, ?_⟩
        · simpa using hb
        · simp
        · simp only [List.length_singleton]
          omega

/-- Claim C10: for every gateway and tool behavior, `MCPClient.process_query`
returns only the text blocks of the first model response containing no
tool-use blocks, joined with no separator: every earlier response in the
call sequence contains tool calls (so its text blocks are not part of the
return value), and when `max_iterations` (10) consecutive responses all
contain tool calls the function returns `none` instead of a string. -/
theorem C10_cli_loop_returns_first_no_tool_response
    (gw : List Message → List ContentBlock) (exec : String → ToolInput → String)
    (history0 : List Message) (q : String) :
    (∀ c ∈ (MCPClient.process_query gw exec history0 q 10).2.calls,
      hasToolCallsB c = true ∨
        (MCPClient.process_query gw exec history0 q 10).2.calls.getLast? = some c) ∧
    ((MCPClient.process_query gw exec history0 q 10).1 = none →
      (MCPClient.process_query gw exec history0 q 10).2.calls.length = 10 ∧
      ∀ c ∈ (MCPClient.process_query gw exec history0 q 10).2.calls,
        hasToolCallsB c = true) ∧
    (∀ s, (MCPClient.process_query gw exec history0 q 10).1 = some s →
      ∃ c, (MCPClient.process_query gw exec history0 q 10).2.calls.getLast? = some c ∧
        hasToolCallsB c = false ∧ s = String.join (textBlocks c) ∧
        1 ≤ (MCPClient.process_query gw exec history0 q 10).2.calls.length ∧
        (MCPClient.process_query gw exec history0 q 10).2.calls.length ≤ 10) := by
  obtain ⟨d, hd, hmem, hnone, hsome⟩ := mainLoop_spec gw exec 10 ⟨history0 ++ [userMsg q], []⟩
  have hcalls : (MCPClient.process_query gw exec history0 q 10).2.calls = d := by
    show (mainLoop gw exec 10 ⟨history0 ++ [userMsg q], []⟩).2.calls = d
    rw [hd]
    simp
  refine ⟨?_, ?_, ?_⟩
  · intro c hc
    rw [hcalls] at hc ⊢
    exact hmem c hc
  · intro hn
    rw [hcalls]
    exact hnone hn
  · intro s hs
    rw [hcalls]
    exact hsome s hs

/-- Witness for C10 on the one-tool-then-text stub: the run's result is the
final (first tool-free) response's text. -/
theorem C10_witness :
    ∃ c, (MCPClient.process_query gwMainOneTool execMain [] "hey" 10).2.calls.getLast?
        = some c ∧
      hasToolCallsB c = false ∧ "final answer" = String.join (textBlocks c) ∧
      1 ≤ (MCPClient.process_query gwMainOneTool execMain [] "hey" 10).2.calls.length ∧
      (MCPClient.process_query gwMainOneTool execMain [] "hey" 10).2.calls.length ≤ 10 :=
  (C10_cli_loop_returns_first_no_tool_response gwMainOneTool execMain [] "hey").2.2
    "final answer" (by decide)

end AzCli
